import Mathlib

/-!
# Verification of the Vita-AI recommendation core

Shallow embedding of the server core of the Vita-AI repository:

* `server/src/services/scoringEngine.ts`   (class `ScoringEngine`)
* `server/src/services/taskService.ts`     (class `TaskService`)
* `server/src/services/userService.ts`     (class `UserService`)
* `server/src/services/dailyResetService.ts` (class `DailyResetService`)

Modelling conventions:

* JavaScript numbers are modelled as exact rationals (`ℚ`); the scoring
  formula, which divides by `log2`, lives in `ℝ`.
* The mutable static class state of `TaskService` + `UserService`
  (task list, dismiss-cooldown map, recommendation counter, metrics
  snapshot) is one explicit `ServerState` record, passed and returned.
* `DailyResetService.checkAndPerformDailyReset` compares wall-clock
  date strings; inside `getRecommendations` its outcome is modelled by
  an explicit Boolean input `dayChanged` (true iff the calendar date
  advanced since the last check).
* The `Map` `dismissCooldown` is an association list with
  prepend-overwrite and first-match lookup; the TS code only ever uses
  `get`/`set`/`clear`, for which this is observation-equivalent.
* `Math.round x` is `⌊x + 1/2⌋` (round half toward +∞), per the
  ECMAScript definition of `Math.round`.
* `Array.prototype.sort` with the score comparator is modelled by
  `List.insertionSort` over the corresponding relation; every theorem
  below depends only on the sorted list being a permutation of its
  input, which holds for any comparison sort.
* `TaskScore.rationale` (a formatted string built by
  `generateRationale`, a pure function of the same inputs as the score)
  is omitted from the record: no verified property mentions its
  content, and number-to-string formatting of (ideal-real-modelled)
  JS floats has no faithful exact counterpart.
* JS truthiness of the optional string field `micro_alt` (where
  `undefined` and `""` are falsy) is modelled by `truthyOpt`.
-/

namespace Vita

/-- `server/src/types/index.ts`: the `category` union of `Task`. -/
inductive Category where
  | hydration
  | movement
  | screen
  | sleep
  | mood
deriving DecidableEq, Repr

/-- `server/src/types/index.ts`: `type TimeWindow = 'morning' | 'day' | 'evening'`. -/
inductive TimeWindow where
  | morning
  | day
  | evening
deriving DecidableEq, Repr

instance : BEq TimeWindow := ⟨fun a b => decide (a = b)⟩

/-- `server/src/types/index.ts`: `interface UserMetrics`. -/
structure UserMetrics where
  water_ml : ℚ
  steps : ℚ
  sleep_hours : ℚ
  screen_time_min : ℚ
  mood_1to5 : ℚ
deriving DecidableEq, Repr

/-- `server/src/types/index.ts`: `interface Task` (static definition plus
mutable runtime fields `ignores`, `completedToday`). -/
structure Task where
  id : String
  title : String
  category : Category
  impact_weight : ℚ
  effort_min : ℚ
  time_gate : Option TimeWindow
  micro_alt : Option String
  ignores : ℕ
  completedToday : Bool
deriving DecidableEq, Repr

/-- `server/src/types/index.ts`: `interface ScoringWeights`. -/
structure ScoringWeights where
  W_urgency : ℚ
  W_impact : ℚ
  W_effort : ℚ
  W_tod : ℚ
  W_penalty : ℚ
deriving DecidableEq, Repr

/-- `server/src/types/index.ts`: `interface TaskScore` (without the
`rationale` string, see the header comment). -/
structure TaskScore where
  task : Task
  score : ℝ

/-- The static (definition-time) part of a `Task`: everything except the
mutable runtime fields `ignores` and `completedToday`. -/
structure TaskStatic where
  id : String
  title : String
  category : Category
  impact_weight : ℚ
  effort_min : ℚ
  time_gate : Option TimeWindow
  micro_alt : Option String
deriving DecidableEq, Repr

/-- Project a `Task` to its static part. -/
def Task.toStatic (t : Task) : TaskStatic :=
  ⟨t.id, t.title, t.category, t.impact_weight, t.effort_min, t.time_gate, t.micro_alt⟩

/-- The process-wide mutable state of the server core: `TaskService.tasks`,
`TaskService.dismissCooldown`, `TaskService.recommendationCount` and
`UserService.currentMetrics`. -/
structure ServerState where
  tasks : List Task
  dismissCooldown : List (String × ℕ)
  recommendationCount : ℕ
  metrics : UserMetrics
deriving DecidableEq, Repr

/-- JS truthiness of `task.micro_alt : string | undefined`
(`undefined` and the empty string are falsy). -/
def truthyOpt : Option String → Bool
  | none => false
  | some s => !(s == "")

/-! ## ScoringEngine (`server/src/services/scoringEngine.ts`) -/

/-- `ScoringEngine.DEFAULT_WEIGHTS`. -/
def DEFAULT_WEIGHTS : ScoringWeights :=
  { W_urgency := 1/2
    W_impact := 3/10
    W_effort := 3/20
    W_tod := 3/20
    W_penalty := 1/5 }

/-- `ScoringEngine.urgencyContribution`: per-category piecewise urgency.
The `switch` has a `default: return 0` branch, unreachable for the
five-constructor `category` type. -/
def urgencyContribution (task : Task) (metrics : UserMetrics) : ℚ :=
  match task.category with
  | Category.hydration =>
      if metrics.water_ml < 2000 then (2000 - metrics.water_ml) / 2000 else 0
  | Category.movement =>
      if metrics.steps < 8000 then (8000 - metrics.steps) / 8000 else 0
  | Category.sleep =>
      if metrics.sleep_hours < 7 then 1 else 0
  | Category.screen =>
      if metrics.screen_time_min > 120 then 1 else 0
  | Category.mood =>
      if metrics.mood_1to5 ≤ 2 then 1 else 3/10

/-- `ScoringEngine.inverseEffort`: `1 / log2(max(effortMin, 1) + 2)`. -/
noncomputable def inverseEffort (effortMin : ℚ) : ℝ :=
  1 / Real.logb 2 ((max effortMin 1 : ℚ) + 2)

/-- `ScoringEngine.timeOfDayFactor`: `1` if the task has no gate or the
gate equals the current window, else `0.2`. -/
def timeOfDayFactor (taskTimeGate : Option TimeWindow) (currentWindow : TimeWindow) : ℚ :=
  match taskTimeGate with
  | none => 1
  | some g => if g = currentWindow then 1 else 1/5

/-- `ScoringEngine.getCurrentTimeWindow` (the wall-clock default of the
`hour` argument is made explicit). -/
def getCurrentTimeWindow (hour : ℕ) : TimeWindow :=
  if 5 ≤ hour ∧ hour < 12 then TimeWindow.morning
  else if 12 ≤ hour ∧ hour < 18 then TimeWindow.day
  else TimeWindow.evening

/-- ECMAScript `Math.round`: round half toward +∞. -/
noncomputable def jsRound (x : ℝ) : ℤ := ⌊x + 1/2⌋

/-- `ScoringEngine.calculateScore`.  The optional `currentTimeWindow`
argument is an explicit `Option TimeWindow` (`none` = relaxed mode);
the optional `weights` argument is explicit at every call site. -/
noncomputable def calculateScore (task : Task) (metrics : UserMetrics)
    (currentTimeWindow : Option TimeWindow) (weights : ScoringWeights) : ℝ :=
  let urgency : ℚ := urgencyContribution task metrics
  let impact : ℚ := task.impact_weight
  let effort : ℝ := inverseEffort task.effort_min
  let timeOfDay : ℚ :=
    match currentTimeWindow with
    | some w => timeOfDayFactor task.time_gate w
    | none => 1
  let penalty : ℕ := task.ignores
  let score : ℝ :=
    (weights.W_urgency : ℝ) * (urgency : ℝ) +
    (weights.W_impact : ℝ) * (impact : ℝ) +
    (weights.W_effort : ℝ) * effort +
    (weights.W_tod : ℝ) * (timeOfDay : ℝ) -
    (weights.W_penalty : ℝ) * (penalty : ℝ)
  (jsRound (score * 10000) : ℝ) / 10000

/-! ## UserService (`server/src/services/userService.ts`) -/

/-- The baseline metrics snapshot (`UserService.currentMetrics` initial
value and the target of `resetDailyMetrics`). -/
def baselineMetrics : UserMetrics :=
  { water_ml := 0, steps := 0, sleep_hours := 0, screen_time_min := 0, mood_1to5 := 3 }

/-- `UserService.resetDailyMetrics` as a state transformer. -/
def resetDailyMetrics (st : ServerState) : ServerState :=
  { st with metrics := baselineMetrics }

/-! ## TaskService catalog (`server/src/services/taskService.ts`, lines 7-105) -/

/-- `TaskService.tasks`: the seeded catalog (7 active entries; the three
commented-out entries of the source are not part of the catalog). -/
def initialTasks : List Task :=
  [ { id := "water-500", title := "Drink 500 ml water", category := Category.hydration,
      impact_weight := 4, effort_min := 5, time_gate := none,
      micro_alt := some "water-250", ignores := 0, completedToday := false },
    { id := "water-250", title := "Drink 250 ml water", category := Category.hydration,
      impact_weight := 3, effort_min := 3, time_gate := none,
      micro_alt := none, ignores := 0, completedToday := false },
    { id := "steps-1k", title := "Walk 1,000 steps", category := Category.movement,
      impact_weight := 4, effort_min := 10, time_gate := none,
      micro_alt := some "steps-300", ignores := 0, completedToday := false },
    { id := "steps-300", title := "Walk 300 steps", category := Category.movement,
      impact_weight := 3, effort_min := 5, time_gate := none,
      micro_alt := none, ignores := 0, completedToday := false },
    { id := "screen-break-10", title := "Take a 10-min screen break", category := Category.screen,
      impact_weight := 4, effort_min := 10, time_gate := none,
      micro_alt := none, ignores := 0, completedToday := false },
    { id := "sleep-winddown-15", title := "15-min wind-down routine", category := Category.sleep,
      impact_weight := 5, effort_min := 15, time_gate := some TimeWindow.evening,
      micro_alt := none, ignores := 0, completedToday := false },
    { id := "mood-check-quick", title := "Quick mood check-in", category := Category.mood,
      impact_weight := 2, effort_min := 3, time_gate := none,
      micro_alt := none, ignores := 0, completedToday := false } ]

/-- The server state at process start. -/
def initialState : ServerState :=
  { tasks := initialTasks, dismissCooldown := [], recommendationCount := 0,
    metrics := baselineMetrics }

/-- A state whose catalog has the seeded static data (arbitrary runtime
`ignores` / `completedToday`); preserved by every core operation. -/
def CatalogConsistent (st : ServerState) : Prop :=
  st.tasks.map Task.toStatic = initialTasks.map Task.toStatic

instance (st : ServerState) : Decidable (CatalogConsistent st) := by
  unfold CatalogConsistent; infer_instance

/-- `TaskService.getTaskById`: first task with the given id. -/
def getTaskById (tasks : List Task) (taskId : String) : Option Task :=
  tasks.find? (fun task => task.id == taskId)

/-! ## TaskService pipeline helpers -/

/-- `TaskService.applySubstitutionRules` (the loop, with the accumulated
`substituted` set of micro-alternative ids made explicit).  `catalog` is
the surrounding `this.tasks`. -/
def applySubstGo (catalog : List Task) (substituted : List String) : List Task → List Task
  | [] => []
  | task :: rest =>
    if 3 ≤ task.ignores ∧ truthyOpt task.micro_alt then
      match task.micro_alt with
      | some m =>
        match catalog.find? (fun t => t.id == m) with
        | some microTask =>
          if !microTask.completedToday then
            microTask :: applySubstGo catalog (m :: substituted) rest
          else
            applySubstGo catalog substituted rest
        | none => applySubstGo catalog substituted rest
      | none => applySubstGo catalog substituted rest
    else if !(substituted.contains task.id) then
      task :: applySubstGo catalog substituted rest
    else
      applySubstGo catalog substituted rest

/-- `TaskService.applySubstitutionRules`. -/
def applySubstitutionRules (catalog : List Task) (candidateTasks : List Task) : List Task :=
  applySubstGo catalog [] candidateTasks

/-- `TaskService.filterMicroAlternatives` (the loop, with the accumulated
`usedTasks` set made explicit).  `catalog` is the surrounding `this.tasks`
consulted for the reverse parent lookup. -/
def filterMicroGo (catalog : List Task) (usedTasks : List String) :
    List TaskScore → List TaskScore
  | [] => []
  | taskScore :: rest =>
    let task := taskScore.task
    if usedTasks.contains task.id then
      filterMicroGo catalog usedTasks rest
    else if (match task.micro_alt with
             | some m => !(m == "") && usedTasks.contains m
             | none => false) then
      filterMicroGo catalog usedTasks rest
    else if (match catalog.find? (fun t => t.micro_alt == some task.id) with
             | some parentTask => usedTasks.contains parentTask.id
             | none => false) then
      filterMicroGo catalog usedTasks rest
    else
      taskScore ::
        filterMicroGo catalog
          (task.id ::
            ((match task.micro_alt with
              | some m => if !(m == "") then [m] else []
              | none => []) ++ usedTasks))
          rest

/-- `TaskService.filterMicroAlternatives`. -/
def filterMicroAlternatives (catalog : List Task) (scoredTasks : List TaskScore) :
    List TaskScore :=
  filterMicroGo catalog [] scoredTasks

/-- `TaskService.filterIneligibleMicroAlternatives`: a micro-alternative
(a task some catalog entry points to via `micro_alt`) is kept only if its
parent is completed today or has been ignored 3+ times. -/
def filterIneligibleMicroAlternatives (catalog : List Task) (candidateTasks : List Task) :
    List Task :=
  candidateTasks.filter (fun task =>
    match catalog.find? (fun t => t.micro_alt == some task.id) with
    | none => true
    | some parentTask => parentTask.completedToday || decide (3 ≤ parentTask.ignores))

/-- The cool-down filter predicate inside `TaskService.getRecommendations`
(lines 245-252): tasks with `ignores ≥ 3` are exempt; otherwise the task
passes iff it has no cool-down entry (or a JS-falsy one, `0`) or the
current recommendation counter has moved past the stored expiry. -/
def cooldownPasses (recommendationCount : ℕ) (dismissCooldown : List (String × ℕ))
    (task : Task) : Bool :=
  if 3 ≤ task.ignores then
    true
  else
    match dismissCooldown.lookup task.id with
    | none => true
    | some cooldownUntil => cooldownUntil == 0 || decide (recommendationCount > cooldownUntil)

/-! ## TaskService lifecycle operations -/

/-- The sort comparator of `TaskService.getRecommendations` (lines
294-301), as the relation "`a` is sorted no later than `b`": score
descending, then `impact_weight` descending, then `effort_min`
ascending, then id ascending. -/
def scoreLE (a b : TaskScore) : Prop :=
  b.score < a.score ∨
    (a.score = b.score ∧
      (b.task.impact_weight < a.task.impact_weight ∨
        (a.task.impact_weight = b.task.impact_weight ∧
          (a.task.effort_min < b.task.effort_min ∨
            (a.task.effort_min = b.task.effort_min ∧ a.task.id ≤ b.task.id)))))

noncomputable instance : DecidableRel scoreLE := fun _ _ => Classical.dec _

/-- `TaskService.performDailyReset`: zero `ignores` / `completedToday`
for every task, clear the cool-down map, reset the cycle counter and
reset the metrics store (`UserService.resetDailyMetrics`). -/
def performDailyReset (st : ServerState) : ServerState :=
  { st with
    tasks := st.tasks.map (fun t => { t with ignores := 0, completedToday := false })
    dismissCooldown := []
    recommendationCount := 0
    metrics := baselineMetrics }

/-- `TaskService.getRecommendations`.  Inputs in addition to the state:
the metrics snapshot passed by the route handler, the current hour
(the `currentHour` parameter, defaulted by callers to the wall-clock
hour), and `dayChanged`, the outcome of the wall-clock date comparison
in `DailyResetService.checkAndPerformDailyReset`.  Returns the new
state and the recommendation list. -/
noncomputable def getRecommendations (st : ServerState) (metrics : UserMetrics)
    (currentHour : ℕ) (dayChanged : Bool) : ServerState × List TaskScore :=
  -- Check for daily reset on first request
  let st := if dayChanged then performDailyReset st else st
  -- Increment recommendation count for cool-down tracking
  let st := { st with recommendationCount := st.recommendationCount + 1 }
  let currentTimeWindow := getCurrentTimeWindow currentHour
  -- Get all eligible tasks (not completed today)
  let candidateTasks := st.tasks.filter (fun task => !task.completedToday)
  -- Filter out micro alternatives unless their parent task is completed or ignored 3+ times
  let candidateTasks := filterIneligibleMicroAlternatives st.tasks candidateTasks
  -- Apply substitution rules
  let candidateTasks := applySubstitutionRules st.tasks candidateTasks
  -- Filter out tasks in cool-down period
  let cooledDownTasks :=
    candidateTasks.filter (cooldownPasses st.recommendationCount st.dismissCooldown)
  -- If fewer than 4 tasks after cool-down filtering then relax cool-down
  let cooledDownTasks :=
    if cooledDownTasks.length < 4 then candidateTasks else cooledDownTasks
  -- Filter tasks based on time gating
  let timeFilteredTasks :=
    cooledDownTasks.filter (fun task =>
      match task.time_gate with
      | some g => g == currentTimeWindow
      | none => true)
  let relaxTimeGates := timeFilteredTasks.length < 4
  let timeFilteredTasks := if relaxTimeGates then cooledDownTasks else timeFilteredTasks
  -- Calculate scores
  let scoredTasks : List TaskScore :=
    timeFilteredTasks.map (fun task =>
      { task := task
        score := calculateScore task metrics
          (if relaxTimeGates then none else some currentTimeWindow) DEFAULT_WEIGHTS })
  -- Sort by score desc, impact_weight desc, effort_min asc, id asc
  let sortedTasks := List.insertionSort scoreLE scoredTasks
  -- Filter to ensure no task and its micro alternative appear together
  let filteredTasks := filterMicroAlternatives st.tasks sortedTasks
  -- Return top 4 unique tasks
  (st, filteredTasks.take 4)

/-- Set `completedToday := true` on the first task with the given id
(the object mutation through `getTaskById`'s reference). -/
def markCompleted (taskId : String) : List Task → List Task
  | [] => []
  | t :: rest =>
    if t.id == taskId then { t with completedToday := true } :: rest
    else t :: markCompleted taskId rest

/-- `TaskService.updateMetricsForCompletedTask`: category switch with
per-id fixed metric increments, merged into the metrics store. -/
def updateMetricsForCompletedTask (task : Task) (metrics : UserMetrics) : UserMetrics :=
  match task.category with
  | Category.hydration =>
    if task.id == "water-500" then { metrics with water_ml := metrics.water_ml + 500 }
    else if task.id == "water-250" then { metrics with water_ml := metrics.water_ml + 250 }
    else metrics
  | Category.movement =>
    if task.id == "steps-1k" then { metrics with steps := metrics.steps + 1000 }
    else if task.id == "steps-300" then { metrics with steps := metrics.steps + 300 }
    else metrics
  | Category.screen => metrics
  | Category.sleep => metrics
  | Category.mood => metrics

/-- `TaskService.completeTask`: returns the success flag and the new state. -/
def completeTask (taskId : String) (st : ServerState) : Bool × ServerState :=
  match getTaskById st.tasks taskId with
  | some task =>
    if !task.completedToday then
      (true,
        { st with
          tasks := markCompleted taskId st.tasks
          metrics := updateMetricsForCompletedTask task st.metrics })
    else (false, st)
  | none => (false, st)

/-- Increment `ignores` on the first task with the given id. -/
def bumpIgnores (taskId : String) : List Task → List Task
  | [] => []
  | t :: rest =>
    if t.id == taskId then { t with ignores := t.ignores + 1 } :: rest
    else t :: bumpIgnores taskId rest

/-- `TaskService.dismissTask`: increments `ignores`; if the new count is
still below 3, records a cool-down expiring after 2 further
recommendation cycles. -/
def dismissTask (taskId : String) (st : ServerState) : Bool × ServerState :=
  match getTaskById st.tasks taskId with
  | some task =>
    (true,
      { st with
        tasks := bumpIgnores taskId st.tasks
        dismissCooldown :=
          if task.ignores + 1 < 3 then
            (taskId, st.recommendationCount + 2) :: st.dismissCooldown
          else st.dismissCooldown })
  | none => (false, st)

/-- `TaskService.dailyReset` (the additional
`DailyResetService.forceDailyReset` call only refreshes the stored
wall-clock date string, which is outside `ServerState`). -/
def dailyReset (st : ServerState) : ServerState :=
  performDailyReset st

/-! ## Theorems -/

/-- C3: `calculateScore` returns the weighted sum
`W_urgency*urgency + W_impact*impact_weight + W_effort*inverseEffort +
W_tod*timeOfDayFactor - W_penalty*ignores`, rounded to exactly 4 decimal
places with the single consistent rounding mode `⌊x·10⁴ + 1/2⌋ / 10⁴`
(ECMAScript `Math.round`, round half toward +∞); with an undefined time
window (relaxed mode) the time-of-day factor is 1 for every task; the
function is a pure function of its four arguments (it is a Lean `def`
reading no other state), hence deterministic. -/
theorem calculateScore_spec (task : Task) (metrics : UserMetrics)
    (w : TimeWindow) (weights : ScoringWeights) :
    calculateScore task metrics (some w) weights =
      (jsRound (((weights.W_urgency : ℝ) * (urgencyContribution task metrics : ℝ) +
        (weights.W_impact : ℝ) * (task.impact_weight : ℝ) +
        (weights.W_effort : ℝ) * inverseEffort task.effort_min +
        (weights.W_tod : ℝ) * (timeOfDayFactor task.time_gate w : ℝ) -
        (weights.W_penalty : ℝ) * (task.ignores : ℝ)) * 10000) : ℝ) / 10000 ∧
    calculateScore task metrics none weights =
      (jsRound (((weights.W_urgency : ℝ) * (urgencyContribution task metrics : ℝ) +
        (weights.W_impact : ℝ) * (task.impact_weight : ℝ) +
        (weights.W_effort : ℝ) * inverseEffort task.effort_min +
        (weights.W_tod : ℝ) * 1 -
        (weights.W_penalty : ℝ) * (task.ignores : ℝ)) * 10000) : ℝ) / 10000 ∧
    (∀ ow : Option TimeWindow, ∃ k : ℤ,
      calculateScore task metrics ow weights = (k : ℝ) / 10000) := by
  refine ⟨rfl, ?_, fun ow => ?_⟩
  · show (jsRound _ : ℝ) / 10000 = _
    norm_num
  · cases ow <;> exact ⟨_, rfl⟩

/-- C4 counterexample: the claim asserts `urgencyContribution` always
lies in `[0,1]`, but at the (unvalidated) metrics snapshot
`water_ml = -2000` the hydration urgency is `(2000-(-2000))/2000 = 2`. -/
theorem urgencyContribution_not_bounded :
    ¬ (urgencyContribution (initialTasks.get ⟨0, by decide⟩)
        { water_ml := -2000, steps := 0, sleep_hours := 0,
          screen_time_min := 0, mood_1to5 := 3 } ≤ 1) := by
  have h : urgencyContribution (initialTasks.get ⟨0, by decide⟩)
      { water_ml := -2000, steps := 0, sleep_hours := 0,
        screen_time_min := 0, mood_1to5 := 3 } =
      if (-2000 : ℚ) < 2000 then (2000 - (-2000 : ℚ)) / 2000 else 0 := rfl
  rw [h]
  norm_num

/-- C4 (amended): `urgencyContribution` matches the per-category
piecewise specification for every metrics snapshot, is always
nonnegative, and is bounded above by 1 whenever the hydration and
movement metrics are nonnegative (`water_ml ≥ 0`, `steps ≥ 0`); the
unrestricted `[0,1]` bound fails for negative metric values (see the
counterexample).  The spec table row "other → 0" concerns category
values outside the five-constructor `category` type and is vacuous. -/
theorem urgencyContribution_spec (task : Task) (metrics : UserMetrics) :
    (task.category = Category.hydration →
      urgencyContribution task metrics = max 0 ((2000 - metrics.water_ml) / 2000) ∧
      (2000 ≤ metrics.water_ml → urgencyContribution task metrics = 0)) ∧
    (task.category = Category.movement →
      urgencyContribution task metrics = max 0 ((8000 - metrics.steps) / 8000) ∧
      (8000 ≤ metrics.steps → urgencyContribution task metrics = 0)) ∧
    (task.category = Category.sleep →
      urgencyContribution task metrics = if metrics.sleep_hours < 7 then 1 else 0) ∧
    (task.category = Category.screen →
      urgencyContribution task metrics = if 120 < metrics.screen_time_min then 1 else 0) ∧
    (task.category = Category.mood →
      urgencyContribution task metrics = if metrics.mood_1to5 ≤ 2 then 1 else 3/10) ∧
    0 ≤ urgencyContribution task metrics ∧
    (0 ≤ metrics.water_ml → 0 ≤ metrics.steps →
      urgencyContribution task metrics ≤ 1) := by
  refine ⟨fun hc => ⟨?_, fun hw => ?_⟩, fun hc => ⟨?_, fun hs => ?_⟩,
    fun hc => ?_, fun hc => ?_, fun hc => ?_, ?_, fun hw hs => ?_⟩
  · simp only [urgencyContribution, hc]
    split_ifs with h
    · exact (max_eq_right (div_nonneg (by linarith) (by norm_num))).symm
    · exact (max_eq_left ((div_le_iff₀ (by norm_num)).mpr (by linarith))).symm
  · simp only [urgencyContribution, hc]
    split_ifs with h
    · linarith
    · rfl
  · simp only [urgencyContribution, hc]
    split_ifs with h
    · exact (max_eq_right (div_nonneg (by linarith) (by norm_num))).symm
    · exact (max_eq_left ((div_le_iff₀ (by norm_num)).mpr (by linarith))).symm
  · simp only [urgencyContribution, hc]
    split_ifs with h
    · linarith
    · rfl
  · simp only [urgencyContribution, hc]
  · simp only [urgencyContribution, hc]
  · simp only [urgencyContribution, hc]
  · cases hcat : task.category <;> simp only [urgencyContribution, hcat] <;>
      split_ifs with h <;> try norm_num
    all_goals exact div_nonneg (by linarith) (by norm_num)
  · cases hcat : task.category <;> simp only [urgencyContribution, hcat] <;>
      split_ifs with h <;> try norm_num
    all_goals rw [div_le_one (by norm_num)]; linarith

/-- C4 witness: the amended bound instantiated at the hydration task
`water-500` and the in-range scenario-A metrics. -/
theorem urgencyContribution_spec_witness :
    urgencyContribution (initialTasks.get ⟨0, by decide⟩)
        { water_ml := 900, steps := 4000, sleep_hours := 6,
          screen_time_min := 150, mood_1to5 := 2 } =
      max 0 ((2000 - 900) / 2000) ∧
    urgencyContribution (initialTasks.get ⟨0, by decide⟩)
        { water_ml := 900, steps := 4000, sleep_hours := 6,
          screen_time_min := 150, mood_1to5 := 2 } ≤ 1 :=
  ⟨((urgencyContribution_spec _ _).1 (by decide)).1,
    (urgencyContribution_spec _ _).2.2.2.2.2.2 (by norm_num) (by norm_num)⟩

/-- C9: after `dailyReset` from any state, every task has `ignores = 0`
and `completedToday = false`, the cool-down map is empty, the
recommendation-cycle counter is 0 and the metrics store is back at the
baseline `{water_ml := 0, steps := 0, sleep_hours := 0,
screen_time_min := 0, mood_1to5 := 3}`; an immediate second
`dailyReset` changes nothing. -/
theorem dailyReset_spec (st : ServerState) :
    ((dailyReset st).tasks.all fun t => t.ignores == 0 && !t.completedToday) = true ∧
    (dailyReset st).dismissCooldown = [] ∧
    (dailyReset st).recommendationCount = 0 ∧
    (dailyReset st).metrics = baselineMetrics ∧
    dailyReset (dailyReset st) = dailyReset st := by
  refine ⟨?_, rfl, rfl, rfl, ?_⟩
  · simp only [dailyReset, performDailyReset, List.all_eq_true]
    intro t ht
    rw [List.mem_map] at ht
    obtain ⟨s, _, rfl⟩ := ht
    simp
  · have hff : ((fun t : Task => { t with ignores := 0, completedToday := false }) ∘
        (fun t : Task => { t with ignores := 0, completedToday := false })) =
        fun t : Task => { t with ignores := 0, completedToday := false } :=
      funext fun t => rfl
    simp [dailyReset, performDailyReset, List.map_map, hff]

/-- C10: with no calendar-date change, `getRecommendations` advances the
recommendation-cycle counter by exactly 1 and leaves the task list
(hence every `ignores` and `completedToday`), the cool-down map and the
metrics store untouched. -/
theorem getRecommendations_frame (st : ServerState) (metrics : UserMetrics)
    (hour : ℕ) :
    (getRecommendations st metrics hour false).1.tasks = st.tasks ∧
    (getRecommendations st metrics hour false).1.dismissCooldown = st.dismissCooldown ∧
    (getRecommendations st metrics hour false).1.metrics = st.metrics ∧
    (getRecommendations st metrics hour false).1.recommendationCount =
      st.recommendationCount + 1 := by
  exact ⟨rfl, rfl, rfl, rfl⟩

/-- C2 (amended): the recommendation result is a function of the catalog
state (per-task ignores and completion flags, cool-down map, cycle
counter), the metrics snapshot, the hour and the date-change outcome —
the embedding takes exactly these inputs, so equal inputs give
identical `(task id, score)` sequences — and the result always has
length at most 4.  (The "always length 4 given ≥ 4 non-completed tasks"
part of the original claim is refuted separately.) -/
theorem getRecommendations_deterministic (st1 st2 : ServerState)
    (m1 m2 : UserMetrics) (h1 h2 : ℕ) (d1 d2 : Bool)
    (hst : st1 = st2) (hm : m1 = m2) (hh : h1 = h2) (hd : d1 = d2) :
    ((getRecommendations st1 m1 h1 d1).2.map fun ts => (ts.task.id, ts.score)) =
      ((getRecommendations st2 m2 h2 d2).2.map fun ts => (ts.task.id, ts.score)) ∧
    (getRecommendations st1 m1 h1 d1).2.length ≤ 4 := by
  subst hst hm hh hd
  refine ⟨rfl, ?_⟩
  simp only [getRecommendations]
  rw [List.length_take]
  exact min_le_left _ _

/-- C2 witness: the determinism theorem applied at the initial state,
baseline metrics, hour 15, no date change. -/
theorem getRecommendations_deterministic_witness :
    ((getRecommendations initialState baselineMetrics 15 false).2.map
        fun ts => (ts.task.id, ts.score)) =
      ((getRecommendations initialState baselineMetrics 15 false).2.map
        fun ts => (ts.task.id, ts.score)) ∧
    (getRecommendations initialState baselineMetrics 15 false).2.length ≤ 4 :=
  getRecommendations_deterministic _ _ _ _ _ _ _ _ rfl rfl rfl rfl

/-! ### Helper lemmas for the lifecycle operations -/

/-- `getTaskById` and `markCompleted` look at the same first match. -/
theorem getTaskById_markCompleted {l : List Task} {taskId : String} {t : Task}
    (h : getTaskById l taskId = some t) :
    getTaskById (markCompleted taskId l) taskId =
      some { t with completedToday := true } := by
  induction l with
  | nil => simp [getTaskById] at h
  | cons a rest ih =>
    cases ha : (a.id == taskId) with
    | true =>
      simp only [getTaskById, List.find?_cons, ha] at h
      cases h
      simp only [markCompleted, ha, if_true, getTaskById, List.find?_cons]
    | false =>
      simp only [getTaskById, List.find?_cons, ha] at h
      simp only [markCompleted, ha, Bool.false_eq_true, if_false, getTaskById,
        List.find?_cons]
      exact ih h

/-- `getTaskById` and `bumpIgnores` look at the same first match. -/
theorem getTaskById_bumpIgnores {l : List Task} {taskId : String} {t : Task}
    (h : getTaskById l taskId = some t) :
    getTaskById (bumpIgnores taskId l) taskId =
      some { t with ignores := t.ignores + 1 } := by
  induction l with
  | nil => simp [getTaskById] at h
  | cons a rest ih =>
    cases ha : (a.id == taskId) with
    | true =>
      simp only [getTaskById, List.find?_cons, ha] at h
      cases h
      simp only [bumpIgnores, ha, if_true, getTaskById, List.find?_cons]
    | false =>
      simp only [getTaskById, List.find?_cons, ha] at h
      simp only [bumpIgnores, ha, Bool.false_eq_true, if_false, getTaskById,
        List.find?_cons]
      exact ih h

/-- In a catalog-consistent task list, the completion side effect of any
member task is given by the fixed per-id table of
`updateMetricsForCompletedTask`. -/
theorem updateMetrics_table {tasks : List Task}
    (hst : tasks.map Task.toStatic = initialTasks.map Task.toStatic)
    {t : Task} (ht : t ∈ tasks) (m : UserMetrics) :
    (updateMetricsForCompletedTask t m).water_ml = m.water_ml +
      (if t.id = "water-500" then 500 else if t.id = "water-250" then 250 else 0) ∧
    (updateMetricsForCompletedTask t m).steps = m.steps +
      (if t.id = "steps-1k" then 1000 else if t.id = "steps-300" then 300 else 0) ∧
    (updateMetricsForCompletedTask t m).sleep_hours = m.sleep_hours ∧
    (updateMetricsForCompletedTask t m).screen_time_min = m.screen_time_min ∧
    (updateMetricsForCompletedTask t m).mood_1to5 = m.mood_1to5 := by
  have hmem : t.toStatic ∈ initialTasks.map Task.toStatic := by
    rw [← hst]
    exact List.mem_map_of_mem _ ht
  simp only [initialTasks, Task.toStatic, List.map_cons, List.map_nil,
    List.mem_cons, List.not_mem_nil, or_false, TaskStatic.mk.injEq] at hmem
  rcases hmem with ⟨hid, _, hcat, _⟩ | ⟨hid, _, hcat, _⟩ | ⟨hid, _, hcat, _⟩ |
    ⟨hid, _, hcat, _⟩ | ⟨hid, _, hcat, _⟩ | ⟨hid, _, hcat, _⟩ | ⟨hid, _, hcat, _⟩ <;>
    simp [updateMetricsForCompletedTask, hcat, hid]

/-- C5: `completeTask` fails (returning `false` and changing nothing)
when the id is unknown or the task is already completed today; otherwise
it succeeds, flips the task's `completedToday` flag and applies exactly
the fixed metric side effect (`water-500` → +500 `water_ml`,
`water-250` → +250 `water_ml`, `steps-1k` → +1000 `steps`,
`steps-300` → +300 `steps`, all other completions change no metric),
leaving the cool-down map and cycle counter alone; an immediate second
call on the same day returns `false` and is a no-op. -/
theorem completeTask_spec (st : ServerState) (taskId : String)
    (hst : CatalogConsistent st) :
    (getTaskById st.tasks taskId = none → completeTask taskId st = (false, st)) ∧
    (∀ task, getTaskById st.tasks taskId = some task →
      (task.completedToday = true → completeTask taskId st = (false, st)) ∧
      (task.completedToday = false →
        (completeTask taskId st).1 = true ∧
        getTaskById (completeTask taskId st).2.tasks taskId =
          some { task with completedToday := true } ∧
        (completeTask taskId st).2.metrics.water_ml = st.metrics.water_ml +
          (if taskId = "water-500" then 500 else
            if taskId = "water-250" then 250 else 0) ∧
        (completeTask taskId st).2.metrics.steps = st.metrics.steps +
          (if taskId = "steps-1k" then 1000 else
            if taskId = "steps-300" then 300 else 0) ∧
        (completeTask taskId st).2.metrics.sleep_hours = st.metrics.sleep_hours ∧
        (completeTask taskId st).2.metrics.screen_time_min =
          st.metrics.screen_time_min ∧
        (completeTask taskId st).2.metrics.mood_1to5 = st.metrics.mood_1to5 ∧
        (completeTask taskId st).2.dismissCooldown = st.dismissCooldown ∧
        (completeTask taskId st).2.recommendationCount = st.recommendationCount ∧
        completeTask taskId (completeTask taskId st).2 =
          (false, (completeTask taskId st).2))) := by
  refine ⟨fun hnone => ?_, fun task hfound => ⟨fun hdone => ?_, fun hnc => ?_⟩⟩
  · simp [completeTask, hnone]
  · simp [completeTask, hfound, hdone]
  · have hidt : task.id = taskId := by
      have := List.find?_some hfound
      simpa using this
    have hmemt : task ∈ st.tasks := List.mem_of_find?_eq_some hfound
    have hS : completeTask taskId st =
        (true,
          { st with
            tasks := markCompleted taskId st.tasks
            metrics := updateMetricsForCompletedTask task st.metrics }) := by
      simp [completeTask, hfound, hnc]
    have htab := updateMetrics_table hst hmemt st.metrics
    rw [hidt] at htab
    have hfind2 : getTaskById (markCompleted taskId st.tasks) taskId =
        some { task with completedToday := true } := getTaskById_markCompleted hfound
    refine ⟨by rw [hS], by rw [hS]; exact hfind2, by rw [hS]; exact htab.1,
      by rw [hS]; exact htab.2.1, by rw [hS]; exact htab.2.2.1,
      by rw [hS]; exact htab.2.2.2.1, by rw [hS]; exact htab.2.2.2.2,
      by rw [hS], by rw [hS], ?_⟩
    rw [hS]
    simp [completeTask, hfind2]

/-- C5 witness: completing `water-500` from the initial state succeeds
and adds 500 to `water_ml`; the follow-up completion fails. -/
theorem completeTask_spec_witness :
    (completeTask "water-500" initialState).1 = true ∧
    (completeTask "water-500" initialState).2.metrics.water_ml =
      initialState.metrics.water_ml + 500 ∧
    completeTask "water-500" (completeTask "water-500" initialState).2 =
      (false, (completeTask "water-500" initialState).2) := by
  have h := ((completeTask_spec initialState "water-500" (by decide)).2
      (initialTasks.get ⟨0, by decide⟩) (by decide)).2 (by decide)
  refine ⟨h.1, ?_, h.2.2.2.2.2.2.2.2.2⟩
  have h2 := h.2.2.1
  simpa using h2

/-- C6: `dismissTask` fails exactly on unknown ids (changing nothing);
otherwise it succeeds, increments the task's `ignores` by 1, and —
unless the new count has reached the substitution threshold 3 — records
a cool-down expiring two recommendation cycles later: the task fails
the cool-down filter in the next two cycles (counter `+1`, `+2`) and
passes from the third on (`decide (2 < k)`); once `ignores ≥ 3` no
cool-down is recorded and the task always passes the filter.  Metrics
and the cycle counter are untouched. -/
theorem dismissTask_spec (st : ServerState) (taskId : String) :
    (getTaskById st.tasks taskId = none → dismissTask taskId st = (false, st)) ∧
    (∀ task, getTaskById st.tasks taskId = some task →
      (dismissTask taskId st).1 = true ∧
      getTaskById (dismissTask taskId st).2.tasks taskId =
        some { task with ignores := task.ignores + 1 } ∧
      (task.ignores + 1 < 3 →
        (dismissTask taskId st).2.dismissCooldown =
          (taskId, st.recommendationCount + 2) :: st.dismissCooldown ∧
        (∀ k : ℕ, cooldownPasses (st.recommendationCount + k)
            (dismissTask taskId st).2.dismissCooldown
            { task with ignores := task.ignores + 1 } = decide (2 < k))) ∧
      (3 ≤ task.ignores + 1 →
        (dismissTask taskId st).2.dismissCooldown = st.dismissCooldown ∧
        (∀ count cooldown, cooldownPasses count cooldown
            { task with ignores := task.ignores + 1 } = true)) ∧
      (dismissTask taskId st).2.metrics = st.metrics ∧
      (dismissTask taskId st).2.recommendationCount = st.recommendationCount) := by
  refine ⟨fun hnone => ?_, fun task hfound => ?_⟩
  · simp [dismissTask, hnone]
  · have hidt : task.id = taskId := by
      have := List.find?_some hfound
      simpa using this
    have hS : dismissTask taskId st =
        (true,
          { st with
            tasks := bumpIgnores taskId st.tasks
            dismissCooldown :=
              if task.ignores + 1 < 3 then
                (taskId, st.recommendationCount + 2) :: st.dismissCooldown
              else st.dismissCooldown }) := by
      simp [dismissTask, hfound]
    refine ⟨by rw [hS], ?_, fun h3 => ⟨?_, fun k => ?_⟩,
      fun h3 => ⟨?_, fun count cooldown => ?_⟩, by rw [hS], by rw [hS]⟩
    · rw [hS]
      exact getTaskById_bumpIgnores hfound
    · rw [hS]
      simp [h3]
    · have hcd : (dismissTask taskId st).2.dismissCooldown =
          (taskId, st.recommendationCount + 2) :: st.dismissCooldown := by
        rw [hS]
        simp [h3]
      rw [hcd]
      simp only [cooldownPasses]
      rw [if_neg (by omega)]
      have hlk : List.lookup
          (Task.id { task with ignores := task.ignores + 1 })
          ((taskId, st.recommendationCount + 2) :: st.dismissCooldown) =
          some (st.recommendationCount + 2) := by
        simp [List.lookup, hidt]
      rw [hlk]
      show ((st.recommendationCount + 2 == 0) ||
          decide (st.recommendationCount + k > st.recommendationCount + 2)) =
        decide (2 < k)
      have h0 : ((st.recommendationCount + 2 == 0) : Bool) = false := by
        simp
      rw [h0, Bool.false_or]
      exact decide_eq_decide.mpr (by omega)
    · rw [hS]
      simp only []
      rw [if_neg (by omega)]
    · simp only [cooldownPasses]
      rw [if_pos (by omega)]

/-- C6 witness: dismissing `water-500` from the initial state succeeds,
records the cool-down `("water-500", 2)`, and the dismissed task is
hidden in the next two cycles and visible in the third. -/
theorem dismissTask_spec_witness :
    (dismissTask "water-500" initialState).1 = true ∧
    (dismissTask "water-500" initialState).2.dismissCooldown = [("water-500", 2)] ∧
    cooldownPasses (initialState.recommendationCount + 1)
      (dismissTask "water-500" initialState).2.dismissCooldown
      { initialTasks.get ⟨0, by decide⟩ with
        ignores := (initialTasks.get ⟨0, by decide⟩).ignores + 1 } = false ∧
    cooldownPasses (initialState.recommendationCount + 3)
      (dismissTask "water-500" initialState).2.dismissCooldown
      { initialTasks.get ⟨0, by decide⟩ with
        ignores := (initialTasks.get ⟨0, by decide⟩).ignores + 1 } = true := by
  have h := (dismissTask_spec initialState "water-500").2
      (initialTasks.get ⟨0, by decide⟩) (by decide)
  have h3 := h.2.2.1 (by decide)
  refine ⟨h.1, ?_, ?_, ?_⟩
  · rw [h3.1]
    rfl
  · rw [h3.2 1]
    rfl
  · rw [h3.2 3]
    rfl

/-! ### Pipeline membership lemmas -/

/-- Elements produced by `applySubstGo` come from the input list or are
non-completed members of the catalog (micro-alternatives are only pushed
after an explicit `!microTask.completedToday` check). -/
theorem applySubstGo_mem (catalog : List Task) :
    ∀ (l : List Task) (subst : List String) (t : Task),
      t ∈ applySubstGo catalog subst l →
      t ∈ l ∨ (t ∈ catalog ∧ t.completedToday = false) := by
  intro l
  induction l with
  | nil => intro subst t ht; simp [applySubstGo] at ht
  | cons a rest ih =>
    intro subst t ht
    rw [applySubstGo] at ht
    by_cases h1 : 3 ≤ a.ignores ∧ truthyOpt a.micro_alt = true
    · rw [if_pos h1] at ht
      cases hma : a.micro_alt with
      | none => rw [hma] at h1; simp [truthyOpt] at h1
      | some m =>
        simp only [hma] at ht
        cases hfind : catalog.find? (fun x => x.id == m) with
        | none =>
          simp only [hfind] at ht
          rcases ih _ _ ht with h | h
          · exact Or.inl (List.mem_cons_of_mem _ h)
          · exact Or.inr h
        | some micro =>
          simp only [hfind] at ht
          cases hmc : micro.completedToday with
          | false =>
            simp only [hmc, Bool.not_false, if_true] at ht
            rcases List.mem_cons.mp ht with rfl | ht2
            · exact Or.inr ⟨List.mem_of_find?_eq_some hfind, hmc⟩
            · rcases ih _ _ ht2 with h | h
              · exact Or.inl (List.mem_cons_of_mem _ h)
              · exact Or.inr h
          | true =>
            simp only [hmc, Bool.not_true, if_false] at ht
            rcases ih _ _ ht with h | h
            · exact Or.inl (List.mem_cons_of_mem _ h)
            · exact Or.inr h
    · rw [if_neg h1] at ht
      by_cases h2 : (subst.contains a.id : Bool) = true
      · simp only [h2, Bool.not_true, if_false] at ht
        rcases ih _ _ ht with h | h
        · exact Or.inl (List.mem_cons_of_mem _ h)
        · exact Or.inr h
      · rw [Bool.not_eq_true] at h2
        simp only [h2, Bool.not_false, if_true] at ht
        rcases List.mem_cons.mp ht with rfl | ht2
        · exact Or.inl (List.mem_cons_self _ _)
        · rcases ih _ _ ht2 with h | h
          · exact Or.inl (List.mem_cons_of_mem _ h)
          · exact Or.inr h

/-- The micro-alternative de-duplication only drops elements. -/
theorem filterMicroGo_subset (catalog : List Task) :
    ∀ (l : List TaskScore) (used : List String) (ts : TaskScore),
      ts ∈ filterMicroGo catalog used l → ts ∈ l := by
  intro l
  induction l with
  | nil => intro used ts hts; simp [filterMicroGo] at hts
  | cons a rest ih =>
    intro used ts hts
    rw [filterMicroGo] at hts
    split_ifs at hts with hc1 hc2 hc3
    · exact List.mem_cons_of_mem _ (ih _ _ hts)
    · exact List.mem_cons_of_mem _ (ih _ _ hts)
    · exact List.mem_cons_of_mem _ (ih _ _ hts)
    · rcases List.mem_cons.mp hts with rfl | hts2
      · exact List.mem_cons_self _ _
      · exact List.mem_cons_of_mem _ (ih _ _ hts2)

/-- If a list's membership survives `if c then l else l.filter p`, it was
in `l`. -/
theorem mem_ite_filter_left {α : Type} {c : Prop} [Decidable c] {l : List α}
    {p : α → Bool} {x : α} (h : x ∈ if c then l else l.filter p) : x ∈ l := by
  split_ifs at h
  · exact h
  · exact List.mem_of_mem_filter h

/-- Every task in the recommendation list is a non-completed member of
the (possibly just reset) catalog. -/
theorem getRecommendations_result_tasks {st : ServerState} {metrics : UserMetrics}
    {hour : ℕ} {dayChanged : Bool} {ts : TaskScore}
    (hts : ts ∈ (getRecommendations st metrics hour dayChanged).2) :
    ts.task.completedToday = false ∧
    ts.task ∈ (if dayChanged then performDailyReset st else st).tasks := by
  cases dayChanged <;>
  · simp only [getRecommendations, Bool.false_eq_true, if_false, if_true,
      filterMicroAlternatives] at hts
    replace hts := List.mem_of_mem_take hts
    replace hts := filterMicroGo_subset _ _ _ _ hts
    replace hts := (List.perm_insertionSort scoreLE _).subset hts
    rw [List.mem_map] at hts
    obtain ⟨task, htask, hts⟩ := hts
    replace htask := mem_ite_filter_left htask
    replace htask := mem_ite_filter_left htask
    simp only [if_false, if_true, Bool.false_eq_true] at hts ⊢
    rcases applySubstGo_mem _ _ _ _ htask with h | h
    · replace h := List.mem_of_mem_filter h
      rw [List.mem_filter] at h
      rw [← hts]
      exact ⟨Bool.not_eq_true' .. ▸ h.2, h.1⟩
    · rw [← hts]
      exact ⟨h.2, h.1⟩

/-- `markCompleted` keeps every task (same id); it can only turn the
completion flag on, never off. -/
theorem markCompleted_mem (taskId : String) :
    ∀ (l : List Task) (t : Task), t ∈ l →
      ∃ u ∈ markCompleted taskId l, u.id = t.id ∧
        (u.completedToday = t.completedToday ∨ u.completedToday = true) := by
  intro l
  induction l with
  | nil => intro t ht; simp at ht
  | cons a rest ih =>
    intro t ht
    rw [markCompleted]
    rcases List.mem_cons.mp ht with heq | ht2
    · by_cases ha : (a.id == taskId) = true
      · rw [if_pos ha]
        exact ⟨{ a with completedToday := true }, List.mem_cons_self _ _,
          by rw [heq], Or.inr rfl⟩
      · rw [if_neg ha]
        exact ⟨a, List.mem_cons_self _ _, by rw [heq], Or.inl (by rw [heq])⟩
    · by_cases ha : (a.id == taskId) = true
      · rw [if_pos ha]
        exact ⟨t, List.mem_cons_of_mem _ ht2, rfl, Or.inl rfl⟩
      · rw [if_neg ha]
        obtain ⟨u, hu, hid, hflag⟩ := ih t ht2
        exact ⟨u, List.mem_cons_of_mem _ hu, hid, hflag⟩

/-- `bumpIgnores` keeps every task (same id) and never changes any
completion flag. -/
theorem bumpIgnores_mem (taskId : String) :
    ∀ (l : List Task) (t : Task), t ∈ l →
      ∃ u ∈ bumpIgnores taskId l, u.id = t.id ∧
        u.completedToday = t.completedToday := by
  intro l
  induction l with
  | nil => intro t ht; simp at ht
  | cons a rest ih =>
    intro t ht
    rw [bumpIgnores]
    rcases List.mem_cons.mp ht with heq | ht2
    · by_cases ha : (a.id == taskId) = true
      · rw [if_pos ha]
        exact ⟨{ a with ignores := a.ignores + 1 }, List.mem_cons_self _ _,
          by rw [heq], by rw [heq]⟩
      · rw [if_neg ha]
        exact ⟨a, List.mem_cons_self _ _, by rw [heq], by rw [heq]⟩
    · by_cases ha : (a.id == taskId) = true
      · rw [if_pos ha]
        exact ⟨t, List.mem_cons_of_mem _ ht2, rfl, rfl⟩
      · rw [if_neg ha]
        obtain ⟨u, hu, hid, hflag⟩ := ih t ht2
        exact ⟨u, List.mem_cons_of_mem _ hu, hid, hflag⟩

/-- C8: no recommendation ever carries a task with
`completedToday = true`; the recommendation query itself does not change
the task list (no date change), and neither `completeTask` nor
`dismissTask` ever clears a completion flag — so a completed task can
only reappear after a daily reset. -/
theorem getRecommendations_excludes_completed (st : ServerState)
    (metrics : UserMetrics) (hour : ℕ) (dayChanged : Bool) (taskId : String) :
    ((getRecommendations st metrics hour dayChanged).2.all
      fun ts => !ts.task.completedToday) = true ∧
    (getRecommendations st metrics hour false).1.tasks = st.tasks ∧
    (st.tasks.all fun t => !t.completedToday ||
      ((completeTask taskId st).2.tasks.any
        fun u => u.id == t.id && u.completedToday)) = true ∧
    (st.tasks.all fun t => !t.completedToday ||
      ((dismissTask taskId st).2.tasks.any
        fun u => u.id == t.id && u.completedToday)) = true := by
  refine ⟨?_, rfl, ?_, ?_⟩
  · rw [List.all_eq_true]
    intro ts hts
    have h := (getRecommendations_result_tasks hts).1
    simp [h]
  · rw [List.all_eq_true]
    intro t ht
    cases hc : t.completedToday with
    | false => simp
    | true =>
      simp only [hc, Bool.not_true, Bool.false_or, List.any_eq_true]
      have htasks : ∃ u ∈ (completeTask taskId st).2.tasks,
          u.id = t.id ∧ u.completedToday = true := by
        cases hf : getTaskById st.tasks taskId with
        | none =>
          simp only [completeTask, hf]
          exact ⟨t, ht, rfl, hc⟩
        | some task =>
          cases hdone : task.completedToday with
          | true =>
            simp only [completeTask, hf, hdone, Bool.not_true, Bool.false_eq_true,
              if_false]
            exact ⟨t, ht, rfl, hc⟩
          | false =>
            simp only [completeTask, hf, hdone, Bool.not_false, if_true]
            obtain ⟨u, hu, hid, hflag⟩ := markCompleted_mem taskId st.tasks t ht
            refine ⟨u, hu, hid, ?_⟩
            rcases hflag with h | h
            · rw [h, hc]
            · exact h
      obtain ⟨u, hu, hid, hflag⟩ := htasks
      exact ⟨u, hu, by simp [hid, hflag]⟩
  · rw [List.all_eq_true]
    intro t ht
    cases hc : t.completedToday with
    | false => simp
    | true =>
      simp only [hc, Bool.not_true, Bool.false_or, List.any_eq_true]
      have htasks : ∃ u ∈ (dismissTask taskId st).2.tasks,
          u.id = t.id ∧ u.completedToday = true := by
        cases hf : getTaskById st.tasks taskId with
        | none =>
          simp only [dismissTask, hf]
          exact ⟨t, ht, rfl, hc⟩
        | some task =>
          simp only [dismissTask, hf]
          obtain ⟨u, hu, hid, hflag⟩ := bumpIgnores_mem taskId st.tasks t ht
          exact ⟨u, hu, hid, hflag.trans hc⟩
      obtain ⟨u, hu, hid, hflag⟩ := htasks
      exact ⟨u, hu, by simp [hid, hflag]⟩

/-! ### No micro-pair co-occurrence -/

/-- Two scored entries are micro-free when neither is the `micro_alt`
target of the other. -/
def MicroFree (a b : TaskScore) : Prop :=
  a.task.micro_alt ≠ some b.task.id ∧ b.task.micro_alt ≠ some a.task.id

/-- The three sequential skip conditions of `filterMicroGo` merged into
one disjunction. -/
theorem filterMicroGo_cons (catalog : List Task) (used : List String)
    (a : TaskScore) (rest : List TaskScore) :
    filterMicroGo catalog used (a :: rest) =
      if (used.contains a.task.id ||
          (match a.task.micro_alt with
           | some m => !(m == "") && used.contains m
           | none => false) ||
          (match catalog.find? (fun t => t.micro_alt == some a.task.id) with
           | some parentTask => used.contains parentTask.id
           | none => false) : Bool) = true
      then filterMicroGo catalog used rest
      else a :: filterMicroGo catalog
        (a.task.id ::
          ((match a.task.micro_alt with
            | some m => if !(m == "") then [m] else []
            | none => []) ++ used)) rest := by
  simp only [filterMicroGo]
  cases h1 : used.contains a.task.id <;>
    cases h2 : (match a.task.micro_alt with
      | some m => !(m == "") && used.contains m
      | none => (false : Bool)) <;>
    cases h3 : (match catalog.find? (fun t => t.micro_alt == some a.task.id) with
      | some parentTask => used.contains parentTask.id
      | none => (false : Bool)) <;>
    simp [h1, h2, h3]

/-- `contains = false` transfers down a superset of the used-id list. -/
theorem contains_false_mono {used us2 : List String}
    (hsub : ∀ x, x ∈ used → x ∈ us2) {x : String}
    (h : us2.contains x = false) : used.contains x = false := by
  have hmem : x ∉ us2 := by simpa using h
  simpa using fun hx => hmem (hsub x hx)

/-- Invariant of the micro-alternative de-duplication: every kept entry
has an id and a `micro_alt` target outside the used set, and the kept
entries are pairwise micro-free. -/
theorem filterMicroGo_strong (catalog : List Task) :
    ∀ (l : List TaskScore) (used : List String),
      (∀ ts ∈ l, ts.task.micro_alt ≠ some "") →
      (∀ ts ∈ filterMicroGo catalog used l,
          used.contains ts.task.id = false ∧
          ∀ m, ts.task.micro_alt = some m → used.contains m = false) ∧
      List.Pairwise MicroFree (filterMicroGo catalog used l) := by
  intro l
  induction l with
  | nil =>
    intro used hne
    constructor
    · intro ts hts; simp [filterMicroGo] at hts
    · simp only [filterMicroGo]; exact List.Pairwise.nil
  | cons a rest ih =>
    intro used hne
    have hneA : a.task.micro_alt ≠ some "" := hne a (List.mem_cons_self _ _)
    have hneR : ∀ ts ∈ rest, ts.task.micro_alt ≠ some "" :=
      fun ts hts => hne ts (List.mem_cons_of_mem _ hts)
    rw [filterMicroGo_cons]
    split_ifs with hskip
    · exact ih used hneR
    · have hc1 : used.contains a.task.id = false := by
        cases h : used.contains a.task.id
        · rfl
        · exact absurd (by rw [h]; simp) hskip
      have hc2 : (match a.task.micro_alt with
          | some m => !(m == "") && used.contains m
          | none => (false : Bool)) = false := by
        cases h : (match a.task.micro_alt with
            | some m => !(m == "") && used.contains m
            | none => (false : Bool))
        · rfl
        · exact absurd (by rw [h]; simp) hskip
      have hc3 : (match catalog.find? (fun t => t.micro_alt == some a.task.id) with
          | some parentTask => used.contains parentTask.id
          | none => (false : Bool)) = false := by
        cases h : (match catalog.find? (fun t => t.micro_alt == some a.task.id) with
            | some parentTask => used.contains parentTask.id
            | none => (false : Bool))
        · rfl
        · exact absurd (by rw [h]; simp) hskip
      have hsub : ∀ x, x ∈ used →
          x ∈ a.task.id ::
            ((match a.task.micro_alt with
              | some m => if !(m == "") then [m] else []
              | none => []) ++ used) :=
        fun x hx => List.mem_cons_of_mem _ (List.mem_append_right _ hx)
      obtain ⟨ihA, ihP⟩ := ih
        (a.task.id ::
          ((match a.task.micro_alt with
            | some m => if !(m == "") then [m] else []
            | none => []) ++ used)) hneR
      constructor
      · intro ts hts
        rcases List.mem_cons.mp hts with rfl | hts2
        · refine ⟨hc1, fun m hm => ?_⟩
          have hme : (m == "") = false :=
            beq_eq_false_iff_ne.mpr (fun hm0 => hneA (by rw [hm, hm0]))
          simp only [hm, hme, Bool.not_false, Bool.true_and] at hc2
          exact hc2
        · have hb := ihA ts hts2
          exact ⟨contains_false_mono hsub hb.1,
            fun m hm => contains_false_mono hsub (hb.2 m hm)⟩
      · rw [List.pairwise_cons]
        refine ⟨fun b hb => ?_, ihP⟩
        have hbem := ihA b hb
        constructor
        · intro hcontra
          have hbne : b.task.id ≠ "" := fun h0 => hneA (by rw [hcontra, h0])
          have hb0 : (b.task.id == "") = false := beq_eq_false_iff_ne.mpr hbne
          have hmem : b.task.id ∈ a.task.id ::
              ((match a.task.micro_alt with
                | some m => if !(m == "") then [m] else []
                | none => []) ++ used) := by
            refine List.mem_cons_of_mem _ (List.mem_append_left _ ?_)
            rw [hcontra]
            simp [hb0]
          exact absurd hmem (by simpa using hbem.1)
        · intro hcontra
          have hnotin := hbem.2 a.task.id hcontra
          have hmm : a.task.id ∈ a.task.id ::
              ((match a.task.micro_alt with
                | some m => if !(m == "") then [m] else []
                | none => []) ++ used) := List.mem_cons_self _ _
          exact absurd hmm (by simpa using hnotin)

/-- The recommendation pipeline with no date change, applied to a state
whose tasks have no empty-string `micro_alt`, yields a pairwise
micro-free list. -/
theorem no_micro_pair_aux (st : ServerState) (metrics : UserMetrics) (hour : ℕ)
    (hne : ∀ t ∈ st.tasks, t.micro_alt ≠ some "") :
    List.Pairwise MicroFree (getRecommendations st metrics hour false).2 := by
  simp only [getRecommendations, Bool.false_eq_true, if_false, filterMicroAlternatives]
  refine List.Pairwise.sublist (List.take_sublist _ _) ?_
  refine (filterMicroGo_strong _ _ _ ?_).2
  intro ts hts
  replace hts := (List.perm_insertionSort scoreLE _).subset hts
  rw [List.mem_map] at hts
  obtain ⟨task, htask, rfl⟩ := hts
  replace htask := mem_ite_filter_left htask
  replace htask := mem_ite_filter_left htask
  rcases applySubstGo_mem _ _ _ _ htask with h | h
  · replace h := List.mem_of_mem_filter h
    replace h := List.mem_of_mem_filter h
    exact hne _ h
  · exact hne _ h.1

/-- C7: no recommendation result ever contains both a task and the task
referenced by its `micro_alt` — for every state whose catalog has no
(JS-falsy) empty-string `micro_alt` reference, hence for every reachable
state of the seeded catalog. -/
theorem getRecommendations_no_micro_pair (st : ServerState)
    (metrics : UserMetrics) (hour : ℕ) (dayChanged : Bool)
    (hne : ∀ t ∈ st.tasks, t.micro_alt ≠ some "") :
    List.Pairwise MicroFree (getRecommendations st metrics hour dayChanged).2 := by
  cases dayChanged
  · exact no_micro_pair_aux st metrics hour hne
  · have heq : getRecommendations st metrics hour true =
        getRecommendations (performDailyReset st) metrics hour false := rfl
    rw [heq]
    refine no_micro_pair_aux _ metrics hour ?_
    intro t ht
    simp only [performDailyReset] at ht
    rw [List.mem_map] at ht
    obtain ⟨s, hs, rfl⟩ := ht
    exact hne s hs

/-- C7 witness: the no-pair invariant at the initial state. -/
theorem getRecommendations_no_micro_pair_witness :
    List.Pairwise MicroFree
      (getRecommendations initialState baselineMetrics 15 false).2 :=
  getRecommendations_no_micro_pair initialState baselineMetrics 15 false
    (by decide)

/-! ### The length-4 guarantee fails: a reachable 4-live-task state with
only 2 recommendations -/

/-- A reachable state: from process start, complete `mood-check-quick`,
`sleep-winddown-15` and `screen-break-10` (all three have no metric side
effect).  Exactly 4 tasks remain non-completed: `water-500`,
`water-250`, `steps-1k`, `steps-300`. -/
def failState : ServerState :=
  (completeTask "screen-break-10"
    (completeTask "sleep-winddown-15"
      (completeTask "mood-check-quick" initialState).2).2).2

/-- A permutation of a two-element list is one of its two arrangements. -/
theorem perm_pair_cases {α : Type} {a b : α} {l : List α} (h : l.Perm [a, b]) :
    l = [a, b] ∨ l = [b, a] := by
  have hlen : l.length = 2 := by simpa using h.length_eq
  have hex : ∃ x y, l = [x, y] := by
    match l, hlen with
    | [x, y], _ => exact ⟨x, y, rfl⟩
  obtain ⟨x, y, rfl⟩ := hex
  have hx : x ∈ [a, b] := h.subset (List.mem_cons_self _ _)
  have hy : y ∈ [a, b] := h.subset (List.mem_cons_of_mem _ (List.mem_cons_self _ _))
  simp only [List.mem_cons, List.not_mem_nil, or_false] at hx hy
  rcases hx with hxa | hxb <;> rcases hy with hya | hyb
  · have hb : b ∈ [x, y] := h.symm.subset (by simp)
    simp only [List.mem_cons, List.not_mem_nil, or_false] at hb
    rcases hb with hb | hb
    · exact Or.inl (by rw [hxa, hya, hb, hxa])
    · exact Or.inl (by rw [hxa, hya, hb, hya])
  · exact Or.inl (by rw [hxa, hyb])
  · exact Or.inr (by rw [hxb, hya])
  · have ha : a ∈ [x, y] := h.symm.subset (by simp)
    simp only [List.mem_cons, List.not_mem_nil, or_false] at ha
    rcases ha with ha | ha
    · exact Or.inr (by rw [hxb, hyb, ha, hxb])
    · exact Or.inr (by rw [hxb, hyb, ha, hyb])

/-- The scored entry for `water-500` in the failing run. -/
noncomputable def failScoreW5 : TaskScore :=
  ⟨initialTasks.get ⟨0, by decide⟩,
    calculateScore (initialTasks.get ⟨0, by decide⟩) baselineMetrics none
      DEFAULT_WEIGHTS⟩

/-- The scored entry for `steps-1k` in the failing run. -/
noncomputable def failScoreS1k : TaskScore :=
  ⟨initialTasks.get ⟨2, by decide⟩,
    calculateScore (initialTasks.get ⟨2, by decide⟩) baselineMetrics none
      DEFAULT_WEIGHTS⟩

/-- In `failState`, the whole candidate pipeline (completion filter,
micro-eligibility filter, substitution, cool-down relax, time-gate
relax) leaves just `water-500` and `steps-1k`, so the result is their
sorted, de-duplicated list. -/
theorem failState_result_eq :
    (getRecommendations failState baselineMetrics 10 false).2 =
      (filterMicroGo failState.tasks []
        (List.insertionSort scoreLE [failScoreW5, failScoreS1k])).take 4 := rfl

/-- The failing run returns exactly 2 recommendations. -/
theorem failState_result_length :
    (getRecommendations failState baselineMetrics 10 false).2.length = 2 := by
  rw [failState_result_eq]
  rcases perm_pair_cases (List.perm_insertionSort scoreLE
      [failScoreW5, failScoreS1k]) with hs | hs <;> rw [hs]
  · rw [filterMicroGo_cons, if_neg (by decide), filterMicroGo_cons,
      if_neg (by decide)]
    rfl
  · rw [filterMicroGo_cons, if_neg (by decide), filterMicroGo_cons,
      if_neg (by decide)]
    rfl

/-- C1 (failing input evaluated): in the reachable state `failState`
(complete the screen, sleep and mood tasks from process start) exactly 4
catalog tasks are non-completed, yet `getRecommendations` returns only
2 entries — the micro-alternative eligibility filter removes
`water-250` and `steps-300` while their live parents are cooling, and
unlike the cool-down and time-gate filters it is never relaxed, so the
"always exactly 4" guarantee is violated. -/
theorem getRecommendations_four_guarantee_fails :
    (failState.tasks.countP fun t => !t.completedToday) = 4 ∧
    (getRecommendations failState baselineMetrics 10 false).2.length = 2 :=
  ⟨by decide, failState_result_length⟩

/-- C2 counterexample: at `failState` (4 non-completed tasks) the
result length is not 4, refuting the "always length 4 given ≥ 4 live
tasks" part of the determinism claim. -/
theorem getRecommendations_length_not_four :
    (failState.tasks.countP fun t => !t.completedToday) = 4 ∧
    (getRecommendations failState baselineMetrics 10 false).2.length ≠ 4 :=
  ⟨by decide, by rw [failState_result_length]; omega⟩

end Vita
